import Mathlib

/-!
# NestRPC call-batching and correlation protocol: a verification development

This repository documents the NestRPC client/server library; the library's
implementation itself is not among the repository's files (the docs under
`src/docs` describe it, `spec.md` specifies it).  The definitions below are
therefore modelled from the specification's words, faithful to the algorithms
it states: the client Batch Queue (§4.2), the Dispatcher demultiplexer (§4.3),
the server Batch Executor (§4.5), the Path Registry startup validation (§4.4),
and the client configuration object (docs `client/configuration.md`).
-/

namespace NestRpc

/-- Modelled from the spec: a client-side call descriptor (§3).  `id` is the
correlation id, `path` the ordered sequence of segments, `input` the optional
serialized input value. -/
structure Descriptor where
  id : Nat
  path : List String
  input : Option String
deriving Repr, DecidableEq

/-- Modelled from the spec: the wire encoding of one call's path,
`id:seg.seg.seg` as in the docs' `calls=1:user.get,2:user.list`. -/
def encodeCall (d : Descriptor) : String :=
  toString d.id ++ ":" ++ String.intercalate "." d.path

/-- Modelled from the spec: the compact `calls` query-parameter encoding of a
batch — the per-call encodings joined by commas. -/
def encodeCalls : List Descriptor → String
  | [] => ""
  | [d] => encodeCall d
  | d :: rest => encodeCall d ++ "," ++ encodeCalls rest

/-- The wire-encoded length contribution of one descriptor's path alone
(spec §4.2 step 1). -/
def pathContribution (d : Descriptor) : Nat :=
  (encodeCall d).length

/-- Modelled from the spec: batch configuration with its documented defaults
`{ enabled: true, maxBatchSize: 20, debounceMs: 50, maxUrlSize: 2048 }`. -/
structure BatchConfig where
  enabled : Bool := true
  maxBatchSize : Nat := 20
  debounceMs : Nat := 50
  maxUrlSize : Nat := 2048
deriving Repr, DecidableEq

/-- Modelled from the spec: the Batch Queue's state — either no open batch
(`none`) or the open batch's descriptors in arrival order.  The debounce timer
is implicit: a timer firing is the explicit `timerFire` transition. -/
structure QueueState where
  openBatch : Option (List Descriptor)
deriving Repr, DecidableEq

/-- Observable events of a queue transition: a flush hands the batch to the
Dispatcher, which sends exactly one wire request for it (§4.3); an oversize
failure settles that one call synchronously with `OversizeError`. -/
inductive QueueEvent where
  | flushed (batch : List Descriptor)
  | failedOversize (d : Descriptor)
deriving Repr, DecidableEq

/-- Modelled from the spec: the Batch Queue's `enqueue` algorithm, §4.2 steps
1–5 verbatim: (1) a path alone over `maxUrlSize` fails synchronously with
`OversizeError` without touching the queue; with batching disabled every
descriptor flushes as a singleton; (2) no open batch: open one with the
descriptor; (3) projected size over `maxUrlSize` or item count over
`maxBatchSize`: flush the current batch without the new descriptor and open a
fresh batch with only it; (4) otherwise append (the rolling debounce timer
reset is implicit); (5) a batch reaching exactly `maxBatchSize` flushes
immediately. -/
def enqueue (cfg : BatchConfig) (st : QueueState) (d : Descriptor) :
    QueueState × List QueueEvent :=
  if cfg.maxUrlSize < pathContribution d then
    (st, [QueueEvent.failedOversize d])
  else if cfg.enabled = false then
    (st, [QueueEvent.flushed [d]])
  else
    match st.openBatch with
    | none =>
        if 1 = cfg.maxBatchSize then
          (⟨none⟩, [QueueEvent.flushed [d]])
        else
          (⟨some [d]⟩, [])
    | some b =>
        if cfg.maxUrlSize < (encodeCalls (b ++ [d])).length
            ∨ cfg.maxBatchSize < b.length + 1 then
          if 1 = cfg.maxBatchSize then
            (⟨none⟩, [QueueEvent.flushed b, QueueEvent.flushed [d]])
          else
            (⟨some [d]⟩, [QueueEvent.flushed b])
        else
          if b.length + 1 = cfg.maxBatchSize then
            (⟨none⟩, [QueueEvent.flushed (b ++ [d])])
          else
            (⟨some (b ++ [d])⟩, [])

/-- Modelled from the spec: the debounce timer firing flushes the open batch
unconditionally (§4.2). -/
def timerFire (st : QueueState) : QueueState × List QueueEvent :=
  match st.openBatch with
  | none => (st, [])
  | some b => (⟨none⟩, [QueueEvent.flushed b])

/-- A sequence of enqueues with no timer firing in between: the calls all
arrive inside one rolling debounce window (§5). -/
def runEnqueues (cfg : BatchConfig) : QueueState → List Descriptor →
    QueueState × List QueueEvent
  | st, [] => (st, [])
  | st, d :: ds =>
      let p := enqueue cfg st d
      let q := runEnqueues cfg p.1 ds
      (q.1, p.2 ++ q.2)

/-- The number of wire requests a list of queue events causes: the Dispatcher
sends exactly one request per flushed batch (§4.3). -/
def wireRequests (evs : List QueueEvent) : Nat :=
  (evs.filter (fun ev => match ev with
    | QueueEvent.flushed _ => true
    | QueueEvent.failedOversize _ => false)).length

theorem encodeCalls_le_append (l₁ l₂ : List Descriptor) :
    (encodeCalls l₁).length ≤ (encodeCalls (l₁ ++ l₂)).length := by
  induction l₁ with
  | nil => simp [encodeCalls]
  | cons d t ih =>
    cases t with
    | nil =>
      cases l₂ with
      | nil => simp
      | cons e es =>
        simp only [List.nil_append, List.singleton_append, encodeCalls,
          String.length_append]
        omega
    | cons d' t' =>
      simp only [List.cons_append, List.append_eq, encodeCalls,
        String.length_append] at ih ⊢
      omega

theorem runEnqueues_cons (cfg : BatchConfig) (st : QueueState) (d : Descriptor)
    (ds : List Descriptor) :
    runEnqueues cfg st (d :: ds)
      = ((runEnqueues cfg (enqueue cfg st d).1 ds).1,
         (enqueue cfg st d).2 ++ (runEnqueues cfg (enqueue cfg st d).1 ds).2) :=
  rfl

theorem runEnqueues_fills (cfg : BatchConfig) (hEn : cfg.enabled = true)
    (rest b : List Descriptor) (hb : b ≠ [])
    (hpaths : ∀ d ∈ rest, pathContribution d ≤ cfg.maxUrlSize)
    (hfit : (encodeCalls (b ++ rest)).length ≤ cfg.maxUrlSize)
    (hcount : b.length + rest.length < cfg.maxBatchSize) :
    runEnqueues cfg ⟨some b⟩ rest = (⟨some (b ++ rest)⟩, []) := by
  induction rest generalizing b with
  | nil => simp [runEnqueues]
  | cons d rest' ih =>
    have hd : pathContribution d ≤ cfg.maxUrlSize := hpaths d (by simp)
    have hfit1 : (encodeCalls (b ++ [d])).length ≤ cfg.maxUrlSize := by
      have := encodeCalls_le_append (b ++ [d]) rest'
      rw [List.append_assoc] at this
      exact le_trans this hfit
    have hlen : b.length + 1 < cfg.maxBatchSize := by
      simp only [List.length_cons] at hcount; omega
    have hstep : enqueue cfg ⟨some b⟩ d = (⟨some (b ++ [d])⟩, []) := by
      simp only [enqueue, hEn]
      rw [if_neg (by omega), if_neg (by simp)]
      rw [if_neg (by push_neg; exact ⟨by omega, by omega⟩), if_neg (by omega)]
    have htail : runEnqueues cfg ⟨some (b ++ [d])⟩ rest'
        = (⟨some ((b ++ [d]) ++ rest')⟩, []) := by
      refine ih (b ++ [d]) (by simp) (fun x hx => hpaths x (by simp [hx])) ?_ ?_
      · rw [List.append_assoc]; simpa using hfit
      · simp only [List.length_append, List.length_singleton, List.length_nil,
          List.length_cons] at hcount ⊢
        omega
    rw [runEnqueues_cons, hstep]
    simp only [htail, List.nil_append, List.append_assoc, List.singleton_append]

theorem runEnqueues_flush_at_cap (cfg : BatchConfig) (hEn : cfg.enabled = true)
    (rest b : List Descriptor) (hb : b ≠ []) (hrest : rest ≠ [])
    (hpaths : ∀ d ∈ rest, pathContribution d ≤ cfg.maxUrlSize)
    (hfit : (encodeCalls (b ++ rest)).length ≤ cfg.maxUrlSize)
    (hcount : b.length + rest.length = cfg.maxBatchSize) :
    runEnqueues cfg ⟨some b⟩ rest = (⟨none⟩, [QueueEvent.flushed (b ++ rest)]) := by
  induction rest generalizing b with
  | nil => exact absurd rfl hrest
  | cons d rest' ih =>
    have hd : pathContribution d ≤ cfg.maxUrlSize := hpaths d (by simp)
    have hfit1 : (encodeCalls (b ++ [d])).length ≤ cfg.maxUrlSize := by
      have := encodeCalls_le_append (b ++ [d]) rest'
      rw [List.append_assoc] at this
      exact le_trans this hfit
    cases rest' with
    | nil =>
      have hlen : b.length + 1 = cfg.maxBatchSize := by
        simp only [List.length_cons, List.length_nil] at hcount; omega
      have hstep : enqueue cfg ⟨some b⟩ d
          = (⟨none⟩, [QueueEvent.flushed (b ++ [d])]) := by
        simp only [enqueue, hEn]
        rw [if_neg (by omega), if_neg (by simp)]
        rw [if_neg (by push_neg; exact ⟨by omega, by omega⟩), if_pos hlen]
      rw [runEnqueues_cons, hstep]
      simp [runEnqueues]
    | cons e rest'' =>
      have hlen : b.length + 1 < cfg.maxBatchSize := by
        simp only [List.length_cons] at hcount; omega
      have hstep : enqueue cfg ⟨some b⟩ d = (⟨some (b ++ [d])⟩, []) := by
        simp only [enqueue, hEn]
        rw [if_neg (by omega), if_neg (by simp)]
        rw [if_neg (by push_neg; exact ⟨by omega, by omega⟩), if_neg (by omega)]
      have htail : runEnqueues cfg ⟨some (b ++ [d])⟩ (e :: rest'')
          = (⟨none⟩, [QueueEvent.flushed ((b ++ [d]) ++ (e :: rest''))]) := by
        refine ih (b ++ [d]) (by simp) (by simp)
          (fun x hx => hpaths x (by simp [hx])) ?_ ?_
        · rw [List.append_assoc]; simpa using hfit
        · simp only [List.length_append, List.length_singleton, List.length_nil,
            List.length_cons] at hcount ⊢
          omega
      rw [runEnqueues_cons, hstep]
      simp only [htail, List.nil_append, List.append_assoc,
        List.singleton_append]

/-- C1: on an enabled queue starting idle, every set of N ≤ `maxBatchSize`
calls — each call's encoded path individually within `maxUrlSize` and the
projected batch encoding within `maxUrlSize` — issued within one rolling
debounce window (no timer firing between the enqueues, the window's final
firing afterwards) is placed in the same open batch, flushed as that one batch,
and causes exactly one wire request. -/
theorem debounce_window_forms_single_batch (cfg : BatchConfig)
    (ds : List Descriptor) (hEn : cfg.enabled = true) (hne : ds ≠ [])
    (hN : ds.length ≤ cfg.maxBatchSize)
    (hpaths : ∀ d ∈ ds, pathContribution d ≤ cfg.maxUrlSize)
    (hfit : (encodeCalls ds).length ≤ cfg.maxUrlSize) :
    (runEnqueues cfg ⟨none⟩ ds).2 ++ (timerFire (runEnqueues cfg ⟨none⟩ ds).1).2
        = [QueueEvent.flushed ds]
    ∧ wireRequests ((runEnqueues cfg ⟨none⟩ ds).2
        ++ (timerFire (runEnqueues cfg ⟨none⟩ ds).1).2) = 1 := by
  have key : (runEnqueues cfg ⟨none⟩ ds).2
      ++ (timerFire (runEnqueues cfg ⟨none⟩ ds).1).2
      = [QueueEvent.flushed ds] := by
    cases ds with
    | nil => exact absurd rfl hne
    | cons d ds' =>
      have hd : pathContribution d ≤ cfg.maxUrlSize := hpaths d (by simp)
      by_cases hone : 1 = cfg.maxBatchSize
      · have hnil : ds' = [] := by
          simp only [List.length_cons] at hN
          have : ds'.length = 0 := by omega
          exact List.length_eq_zero.mp this
        subst hnil
        have hstep : enqueue cfg ⟨none⟩ d = (⟨none⟩, [QueueEvent.flushed [d]]) := by
          simp only [enqueue, hEn]
          rw [if_neg (by omega), if_neg (by simp), if_pos hone]
        rw [runEnqueues_cons, hstep]
        simp [runEnqueues, timerFire]
      · have hstep : enqueue cfg ⟨none⟩ d = (⟨some [d]⟩, []) := by
          simp only [enqueue, hEn]
          rw [if_neg (by omega), if_neg (by simp), if_neg hone]
        rw [runEnqueues_cons, hstep]
        cases ds' with
        | nil => simp [runEnqueues, timerFire]
        | cons e ds'' =>
          have hpaths' : ∀ x ∈ e :: ds'', pathContribution x ≤ cfg.maxUrlSize :=
            fun x hx => hpaths x (by simp [hx])
          have hfit' : (encodeCalls ([d] ++ (e :: ds''))).length
              ≤ cfg.maxUrlSize := by
            simpa using hfit
          by_cases hcap : 1 + (e :: ds'').length = cfg.maxBatchSize
          · have hflush := runEnqueues_flush_at_cap cfg hEn (e :: ds'') [d]
              (by simp) (by simp) hpaths' hfit' (by simpa using hcap)
            rw [hflush]
            simp [timerFire]
          · have hlt : (1 : Nat) + (e :: ds'').length < cfg.maxBatchSize := by
              simp only [List.length_cons] at hN ⊢
              simp only [List.length_cons] at hcap
              omega
            have hfill := runEnqueues_fills cfg hEn (e :: ds'') [d]
              (by simp) hpaths' hfit' (by simpa using hlt)
            rw [hfill]
            simp [timerFire]
  refine ⟨key, ?_⟩
  rw [key]
  rfl

/-- C1 witness: two concrete calls under the documented default configuration
form one batch and one wire request. -/
theorem debounce_window_forms_single_batch_witness :
    (runEnqueues ⟨true, 20, 50, 2048⟩ ⟨none⟩
        [⟨1, ["user", "get"], some "u1"⟩, ⟨2, ["user", "list"], none⟩]).2
      ++ (timerFire (runEnqueues ⟨true, 20, 50, 2048⟩ ⟨none⟩
        [⟨1, ["user", "get"], some "u1"⟩, ⟨2, ["user", "list"], none⟩]).1).2
      = [QueueEvent.flushed
          [⟨1, ["user", "get"], some "u1"⟩, ⟨2, ["user", "list"], none⟩]]
    ∧ wireRequests ((runEnqueues ⟨true, 20, 50, 2048⟩ ⟨none⟩
        [⟨1, ["user", "get"], some "u1"⟩, ⟨2, ["user", "list"], none⟩]).2
      ++ (timerFire (runEnqueues ⟨true, 20, 50, 2048⟩ ⟨none⟩
        [⟨1, ["user", "get"], some "u1"⟩, ⟨2, ["user", "list"], none⟩]).1).2) = 1 :=
  debounce_window_forms_single_batch ⟨true, 20, 50, 2048⟩
    [⟨1, ["user", "get"], some "u1"⟩, ⟨2, ["user", "list"], none⟩]
    rfl (by decide) (by decide) (by decide) (by decide)

/-- C4: a call whose wire-encoded path alone exceeds `maxUrlSize` fails
synchronously with `OversizeError`, the queue state (any open batch included)
is left unchanged, and no wire request is caused for it. -/
theorem oversize_path_fails_without_request (cfg : BatchConfig)
    (st : QueueState) (d : Descriptor)
    (h : cfg.maxUrlSize < pathContribution d) :
    enqueue cfg st d = (st, [QueueEvent.failedOversize d])
    ∧ wireRequests (enqueue cfg st d).2 = 0 := by
  have he : enqueue cfg st d = (st, [QueueEvent.failedOversize d]) := by
    simp [enqueue, h]
  refine ⟨he, ?_⟩
  rw [he]
  rfl

/-- C4 witness: a concrete oversize call against a tiny `maxUrlSize` fails in
place, leaving the open batch untouched. -/
theorem oversize_path_fails_without_request_witness :
    enqueue ⟨true, 20, 50, 4⟩ ⟨some [⟨1, ["a"], none⟩]⟩ ⟨2, ["abcdefgh"], none⟩
      = (⟨some [⟨1, ["a"], none⟩]⟩,
         [QueueEvent.failedOversize ⟨2, ["abcdefgh"], none⟩])
    ∧ wireRequests (enqueue ⟨true, 20, 50, 4⟩ ⟨some [⟨1, ["a"], none⟩]⟩
        ⟨2, ["abcdefgh"], none⟩).2 = 0 :=
  oversize_path_fails_without_request ⟨true, 20, 50, 4⟩
    ⟨some [⟨1, ["a"], none⟩]⟩ ⟨2, ["abcdefgh"], none⟩ (by decide)

/-- Modelled from the spec: a response item's outcome (§3),
`Success(data) | Failure(code, name, message)`. -/
inductive Outcome where
  | success (data : String)
  | failure (code : Nat) (name : String) (message : String)
deriving Repr, DecidableEq

/-- Modelled from the spec: one correlated item of the batch response (§3). -/
structure BatchResponseItem where
  id : Nat
  outcome : Outcome
deriving Repr, DecidableEq

/-- How a caller's pending future settles: resolved with data, or rejected
with a structured error carrying code, name and message (§4.3). -/
inductive Settled where
  | resolved (data : String)
  | rejected (code : Nat) (name : String) (message : String)
deriving Repr, DecidableEq

/-- The settlement a response outcome produces: `Success` resolves with its
data, `Failure` rejects with the structured error (§4.3). -/
def settleOf : Outcome → Settled
  | Outcome.success d => Settled.resolved d
  | Outcome.failure c n m => Settled.rejected c n m

/-- Modelled from the spec: the Dispatcher's demultiplexer (§4.3) — look up
the response item whose correlation id equals the pending call's own id and
settle that call from its outcome; `none` when no item carries the id. -/
def demux (items : List BatchResponseItem) (i : Nat) : Option Settled :=
  (items.find? (fun it => it.id == i)).map (fun it => settleOf it.outcome)

theorem find?_id_eq_some (items : List BatchResponseItem)
    (hnodup : (items.map (fun it => it.id)).Nodup) (it : BatchResponseItem)
    (hmem : it ∈ items) :
    items.find? (fun x => x.id == it.id) = some it := by
  induction items with
  | nil => cases hmem
  | cons a tl ih =>
    simp only [List.map_cons, List.nodup_cons] at hnodup
    rcases List.mem_cons.mp hmem with h | h
    · subst h
      exact List.find?_cons_of_pos _ (by simp)
    · have hne : a.id ≠ it.id := by
        intro he
        exact hnodup.1 (he ▸ List.mem_map_of_mem (fun x => x.id) h)
      rw [List.find?_cons_of_neg _ (by simpa using hne)]
      exact ih hnodup.2 h

/-- C2: demultiplexing is correlation-by-id and invariant under any
permutation of the response array — each pending id settles with the payload
of the item carrying that id, wherever that item sits. -/
theorem demux_invariant_under_reordering
    (items items' : List BatchResponseItem) (hperm : items.Perm items')
    (hnodup : (items.map (fun it => it.id)).Nodup) (i : Nat) :
    demux items i = demux items' i
    ∧ (∀ it ∈ items, it.id = i →
        demux items' i = some (settleOf it.outcome)) := by
  have hnodup' : (items'.map (fun it => it.id)).Nodup :=
    ((hperm.map (fun it => it.id)).nodup_iff).mp hnodup
  have hmain : demux items i = demux items' i := by
    by_cases hex : ∃ it ∈ items, it.id = i
    · obtain ⟨it, hmem, hid⟩ := hex
      subst hid
      rw [demux, demux, find?_id_eq_some items hnodup it hmem,
        find?_id_eq_some items' hnodup' it (hperm.mem_iff.mp hmem)]
    · push_neg at hex
      rw [demux, demux, List.find?_eq_none.mpr, List.find?_eq_none.mpr]
      · intro x hx
        simpa using hex x (hperm.mem_iff.mpr hx)
      · intro x hx
        simpa using hex x hx
  refine ⟨hmain, fun it hmem hid => ?_⟩
  subst hid
  rw [← hmain, demux, find?_id_eq_some items hnodup it hmem]
  rfl

/-- C2 witness: a two-item response and its reversal settle a concrete id
identically, with the payload of the item carrying that id. -/
theorem demux_invariant_under_reordering_witness :
    demux [⟨1, Outcome.success "ada"⟩, ⟨2, Outcome.failure 400 "Bad" "boom"⟩] 2
      = demux [⟨2, Outcome.failure 400 "Bad" "boom"⟩, ⟨1, Outcome.success "ada"⟩] 2
    ∧ demux [⟨2, Outcome.failure 400 "Bad" "boom"⟩, ⟨1, Outcome.success "ada"⟩] 2
      = some (settleOf (Outcome.failure 400 "Bad" "boom")) :=
  ⟨(demux_invariant_under_reordering
      [⟨1, Outcome.success "ada"⟩, ⟨2, Outcome.failure 400 "Bad" "boom"⟩]
      [⟨2, Outcome.failure 400 "Bad" "boom"⟩, ⟨1, Outcome.success "ada"⟩]
      (by decide) (by decide) 2).1,
   (demux_invariant_under_reordering
      [⟨1, Outcome.success "ada"⟩, ⟨2, Outcome.failure 400 "Bad" "boom"⟩]
      [⟨2, Outcome.failure 400 "Bad" "boom"⟩, ⟨1, Outcome.success "ada"⟩]
      (by decide) (by decide) 2).2
      ⟨2, Outcome.failure 400 "Bad" "boom"⟩ (by decide) rfl⟩

/-- C7: for every response item received for a pending call id, a `Success`
outcome resolves that caller's future with the item's data and a `Failure`
outcome rejects it with the structured error carrying code, name and
message. -/
theorem response_item_settles_pending (items : List BatchResponseItem)
    (hnodup : (items.map (fun it => it.id)).Nodup) (it : BatchResponseItem)
    (hmem : it ∈ items) :
    (∀ d, it.outcome = Outcome.success d →
      demux items it.id = some (Settled.resolved d))
    ∧ (∀ c n m, it.outcome = Outcome.failure c n m →
      demux items it.id = some (Settled.rejected c n m)) := by
  have hf := find?_id_eq_some items hnodup it hmem
  constructor
  · intro d hd
    rw [demux, hf]
    simp [settleOf, hd]
  · intro c n m hm
    rw [demux, hf]
    simp [settleOf, hm]

/-- C7 witness: concrete success and failure items settle their own callers
accordingly. -/
theorem response_item_settles_pending_witness :
    demux [⟨1, Outcome.success "ada"⟩, ⟨2, Outcome.failure 404 "NotFound" "gone"⟩] 1
      = some (Settled.resolved "ada")
    ∧ demux [⟨1, Outcome.success "ada"⟩, ⟨2, Outcome.failure 404 "NotFound" "gone"⟩] 2
      = some (Settled.rejected 404 "NotFound" "gone") :=
  ⟨(response_item_settles_pending
      [⟨1, Outcome.success "ada"⟩, ⟨2, Outcome.failure 404 "NotFound" "gone"⟩]
      (by decide) ⟨1, Outcome.success "ada"⟩ (by decide)).1 "ada" rfl,
   (response_item_settles_pending
      [⟨1, Outcome.success "ada"⟩, ⟨2, Outcome.failure 404 "NotFound" "gone"⟩]
      (by decide) ⟨2, Outcome.failure 404 "NotFound" "gone"⟩ (by decide)).2
      404 "NotFound" "gone" rfl⟩

/-- Modelled from the spec: a domain error — an exception thrown inside a
resolved invocation, carrying a code/status, a name and a message (§7). -/
structure DomainErr where
  code : Nat
  name : String
  message : String
deriving Repr, DecidableEq

/-- Modelled from the spec: a resolved Path Registry entry (§3): the target
behind one path, its handler taking the call's input to a returned value or a
thrown domain error, and `duration`, the modelled execution time of one
invocation (for the fan-out latency bound of §4.5). -/
structure RegistryEntry where
  path : List String
  duration : Nat
  handler : Option String → Except DomainErr String

/-- The server-side registry built at startup, read-only afterwards (§3). -/
abbrev Registry := List RegistryEntry

/-- Modelled from the spec: path lookup — resolve a dotted path to its entry,
`none` being the per-call `NotFoundError` case (§4.4). -/
def lookup (reg : Registry) (p : List String) : Option RegistryEntry :=
  reg.find? (fun e => e.path == p)

/-- Modelled from the spec: one decoded `(id, path, input)` triple of an
inbound batch (§4.5). -/
structure BatchItem where
  id : Nat
  path : List String
  input : Option String
deriving Repr, DecidableEq

/-- The message of the `NotFound`-class failure item (§4.5). -/
def notFoundMessage : String := "No route registered for this path"

/-- Modelled from the spec: per-item execution (§4.5) — resolution failure
produces a `NotFound`-class `Failure` item and never attempts invocation; an
exception thrown inside the invocation is caught at the per-item boundary and
converted to that item's `Failure` with code, name and message derived from
the exception; a returned value is wrapped as `Success`. -/
def executeItem (reg : Registry) (item : BatchItem) : BatchResponseItem :=
  match lookup reg item.path with
  | none => ⟨item.id, Outcome.failure 404 "NotFoundError" notFoundMessage⟩
  | some e =>
      match e.handler item.input with
      | Except.ok data => ⟨item.id, Outcome.success data⟩
      | Except.error err =>
          ⟨item.id, Outcome.failure err.code err.name err.message⟩

/-- Modelled from the spec: the Batch Executor assembles the correlated
response by executing every decoded item on its own (§4.5). -/
def executeBatch (reg : Registry) (items : List BatchItem) :
    List BatchResponseItem :=
  items.map (executeItem reg)

/-- Modelled from the spec: a transport-level error of the whole batch
request (§7). -/
structure TransportErr where
  code : Nat
  name : String
  message : String
deriving Repr, DecidableEq

/-- Modelled from the spec: on transport failure the Dispatcher rejects every
pending future of the in-flight batch with the same transport error (§4.3). -/
def settleTransportFailure (pending : List Nat) (err : TransportErr) :
    List (Nat × Settled) :=
  pending.map (fun i => (i, Settled.rejected err.code err.name err.message))

/-- C3: per-item errors are isolated — a path-resolution failure or an
exception inside one resolved invocation becomes that item's `Failure`
outcome, and an item's response depends only on that item (so no sibling's
outcome changes); a transport-level failure of the whole batch rejects every
pending call with the same transport error, the one cross-call propagation. -/
theorem per_item_errors_isolated (reg : Registry) (item : BatchItem) :
    (lookup reg item.path = none →
      executeItem reg item
        = ⟨item.id, Outcome.failure 404 "NotFoundError" notFoundMessage⟩)
    ∧ (∀ e err, lookup reg item.path = some e →
        e.handler item.input = Except.error err →
        executeItem reg item
          = ⟨item.id, Outcome.failure err.code err.name err.message⟩)
    ∧ (∀ items items' : List BatchItem, ∀ j : Nat, items[j]? = items'[j]? →
        (executeBatch reg items)[j]? = (executeBatch reg items')[j]?)
    ∧ (∀ (pending : List Nat) (terr : TransportErr) (pr : Nat × Settled),
        pr ∈ settleTransportFailure pending terr →
        pr.2 = Settled.rejected terr.code terr.name terr.message)
    ∧ (∀ (pending : List Nat) (terr : TransportErr),
        (settleTransportFailure pending terr).map Prod.fst = pending) := by
  refine ⟨?_, ?_, ?_, ?_, ?_⟩
  · intro h
    simp [executeItem, h]
  · intro e err h1 h2
    simp [executeItem, h1, h2]
  · intro items items' j h
    simp only [executeBatch, List.getElem?_map, h]
  · intro pending terr pr hpr
    obtain ⟨i, _, hi⟩ := List.mem_map.mp hpr
    rw [← hi]
  · intro pending terr
    simp only [settleTransportFailure, List.map_map]
    exact List.map_id _

/-- A concrete registry for witnesses: one succeeding route and one route
whose handler throws a domain error. -/
def regW : Registry :=
  [⟨["user", "get"], 5, fun _ => Except.ok "ada"⟩,
   ⟨["user", "boom"], 3,
    fun _ => Except.error ⟨400, "BadRequestException", "bad input"⟩⟩]

/-- C3 witness: an unresolved path and a throwing handler each fail their own
item only, and a transport failure settles exactly the pending ids. -/
theorem per_item_errors_isolated_witness :
    executeItem regW ⟨7, ["user", "missing"], none⟩
      = ⟨7, Outcome.failure 404 "NotFoundError" notFoundMessage⟩
    ∧ executeItem regW ⟨8, ["user", "boom"], none⟩
      = ⟨8, Outcome.failure 400 "BadRequestException" "bad input"⟩
    ∧ (settleTransportFailure [1, 2] ⟨0, "TransportError", "reset"⟩).map Prod.fst
      = [1, 2] :=
  ⟨(per_item_errors_isolated regW ⟨7, ["user", "missing"], none⟩).1 rfl,
   (per_item_errors_isolated regW ⟨8, ["user", "boom"], none⟩).2.1
     ⟨["user", "boom"], 3,
      fun _ => Except.error ⟨400, "BadRequestException", "bad input"⟩⟩
     ⟨400, "BadRequestException", "bad input"⟩ rfl rfl,
   (per_item_errors_isolated regW ⟨0, [], none⟩).2.2.2.2
     [1, 2] ⟨0, "TransportError", "reset"⟩⟩

/-- The modelled duration of one item's execution: its resolved entry's
duration (resolution failure produces its item without invocation, duration
0). -/
def itemDuration (reg : Registry) (item : BatchItem) : Nat :=
  match lookup reg item.path with
  | none => 0
  | some e => e.duration

/-- Modelled from the spec: the timed semantics of concurrent fan-out (§4.5)
— every item of the batch starts together, so the batch completes when its
slowest item completes. -/
def batchLatency (reg : Registry) (items : List BatchItem) : Nat :=
  (items.map (itemDuration reg)).foldr max 0

/-- The latency serialized execution would have: the sum of the items'
durations, the bound the spec rules out (§4.5). -/
def serialLatency (reg : Registry) (items : List BatchItem) : Nat :=
  (items.map (itemDuration reg)).sum

theorem le_foldr_max (l : List Nat) (x : Nat) (hx : x ∈ l) :
    x ≤ l.foldr max 0 := by
  induction l with
  | nil => cases hx
  | cons a t ih =>
    rcases List.mem_cons.mp hx with h | h
    · subst h
      exact le_max_left _ _
    · exact le_trans (ih h) (le_max_right _ _)

theorem foldr_max_mem (l : List Nat) (hl : l ≠ []) : l.foldr max 0 ∈ l := by
  induction l with
  | nil => exact absurd rfl hl
  | cons a t ih =>
    cases t with
    | nil => simp
    | cons b t' =>
      rcases le_total ((b :: t').foldr max 0) a with h | h
      · simp only [List.foldr_cons] at h ⊢
        rw [max_eq_left h]
        exact List.mem_cons_self _ _
      · simp only [List.foldr_cons] at h ⊢
        rw [max_eq_right h]
        exact List.mem_cons_of_mem _ (ih (by simp))

theorem foldr_max_le_sum (l : List Nat) : l.foldr max 0 ≤ l.sum := by
  induction l with
  | nil => simp
  | cons a t ih =>
    simp only [List.foldr_cons, List.sum_cons]
    exact max_le (Nat.le_add_right _ _) (le_trans ih (Nat.le_add_left _ _))

/-- C9: under the fan-out execution of a decoded batch, every item's duration
is within the batch's completion time, the batch completes exactly when some
(slowest) item does, and the total latency is bounded by that slowest single
call rather than by the serialized sum. -/
theorem fan_out_latency_bounded_by_slowest (reg : Registry)
    (items : List BatchItem) :
    (∀ it ∈ items, itemDuration reg it ≤ batchLatency reg items)
    ∧ (items ≠ [] →
        ∃ it ∈ items, batchLatency reg items = itemDuration reg it)
    ∧ batchLatency reg items ≤ serialLatency reg items := by
  refine ⟨?_, ?_, ?_⟩
  · intro it hit
    exact le_foldr_max _ _ (List.mem_map_of_mem _ hit)
  · intro hne
    have hmem : (items.map (itemDuration reg)).foldr max 0
        ∈ items.map (itemDuration reg) :=
      foldr_max_mem _ (by simpa using hne)
    obtain ⟨it, hit, heq⟩ := List.mem_map.mp hmem
    exact ⟨it, hit, heq.symm⟩
  · exact foldr_max_le_sum _

/-- C9 witness: a concrete two-item batch completes with its slowest item (5),
below the serialized sum (8). -/
theorem fan_out_latency_bounded_by_slowest_witness :
    (∃ it ∈ [(⟨1, ["user", "get"], none⟩ : BatchItem),
             ⟨2, ["user", "boom"], none⟩],
      batchLatency regW [⟨1, ["user", "get"], none⟩, ⟨2, ["user", "boom"], none⟩]
        = itemDuration regW it)
    ∧ batchLatency regW [⟨1, ["user", "get"], none⟩, ⟨2, ["user", "boom"], none⟩]
      ≤ serialLatency regW [⟨1, ["user", "get"], none⟩, ⟨2, ["user", "boom"], none⟩] :=
  ⟨(fan_out_latency_bounded_by_slowest regW
      [⟨1, ["user", "get"], none⟩, ⟨2, ["user", "boom"], none⟩]).2.1
      (by simp),
   (fan_out_latency_bounded_by_slowest regW
      [⟨1, ["user", "get"], none⟩, ⟨2, ["user", "boom"], none⟩]).2.2⟩

/-- Modelled from the spec: a method declaration as the startup validator
sees it — its name, whether it carries the route decoration, and whether its
reserved first positional parameter carries a parameter-binding decoration
(§4.4; docs `server/routers-and-routes.md`). -/
structure MethodDecl where
  name : String
  isRoute : Bool
  param0Decorated : Bool
deriving Repr, DecidableEq

/-- Modelled from the spec: a class referenced by a manifest leaf — whether it
carries the router decoration, and its declared methods. -/
structure RouterClass where
  isRouter : Bool
  methods : List MethodDecl
deriving Repr, DecidableEq

/-- Modelled from the spec: the declarative manifest tree (glossary),
represented by its leaves: the dotted path of nested keys leading to each
leaf, paired with the class registered there.  The tree shape above the
leaves plays no role in startup validation. -/
abbrev Manifest := List (List String × RouterClass)

/-- The kinds of fatal startup validation errors (§4.4, §7). -/
inductive ValidationErrorKind where
  | notRouter
  | noRoute
  | reservedParamDecorated
  | duplicatePath
deriving Repr, DecidableEq

/-- Modelled from the spec: a fatal startup error names the offending
path (§4.4). -/
structure StartupValidationError where
  path : List String
  kind : ValidationErrorKind
deriving Repr, DecidableEq

/-- Modelled from the spec: validation of one manifest leaf (§4.4): the class
must carry the router decoration and have a route-decorated method, and no
route method may decorate its reserved first parameter. -/
def checkLeaf (p : List String) (cls : RouterClass) :
    Option StartupValidationError :=
  if cls.isRouter = false then some ⟨p, ValidationErrorKind.notRouter⟩
  else if cls.methods.any (fun mth => mth.isRoute) = false then
    some ⟨p, ValidationErrorKind.noRoute⟩
  else
    match cls.methods.find? (fun mth => mth.isRoute && mth.param0Decorated) with
    | some mth =>
        some ⟨p ++ [mth.name], ValidationErrorKind.reservedParamDecorated⟩
    | none => none

/-- The call paths one leaf registers: its path extended by each
route-decorated method's name. -/
def routePaths (p : List String) (cls : RouterClass) : List (List String) :=
  (cls.methods.filter (fun mth => mth.isRoute)).map (fun mth => p ++ [mth.name])

/-- Every call path the manifest registers. -/
def allRoutePaths (m : Manifest) : List (List String) :=
  m.flatMap (fun pc => routePaths pc.1 pc.2)

/-- The first registered path that occurs again later, if any. -/
def firstDup : List (List String) → Option (List String)
  | [] => none
  | p :: rest => if p ∈ rest then some p else firstDup rest

/-- Modelled from the spec: `nestRpcInit` validates the manifest and builds
the registry before the server accepts traffic (§4.4): any invalid leaf or
duplicate registered path is a fatal error naming an offending path;
otherwise the registered call paths are produced and serving may begin. -/
def nestRpcInit (m : Manifest) :
    Except StartupValidationError (List (List String)) :=
  match m.findSome? (fun pc => checkLeaf pc.1 pc.2) with
  | some e => Except.error e
  | none =>
      match firstDup (allRoutePaths m) with
      | some p => Except.error ⟨p, ValidationErrorKind.duplicatePath⟩
      | none => Except.ok (allRoutePaths m)

theorem firstDup_eq_none_iff (l : List (List String)) :
    firstDup l = none ↔ l.Nodup := by
  induction l with
  | nil => simp [firstDup]
  | cons p rest ih =>
    by_cases hp : p ∈ rest
    · simp [firstDup, hp]
    · simp [firstDup, hp, ih]

theorem firstDup_counts (l : List (List String)) (p : List String)
    (h : firstDup l = some p) : 2 ≤ l.count p := by
  induction l with
  | nil => simp [firstDup] at h
  | cons q rest ih =>
    by_cases hq : q ∈ rest
    · rw [firstDup, if_pos hq] at h
      have hqp : q = p := by injection h
      subst hqp
      have h1 : 0 < rest.count q := List.count_pos_iff.mpr hq
      simp only [List.count_cons_self]
      omega
    · rw [firstDup, if_neg hq] at h
      have := ih h
      have hle := List.count_le_count_cons p q rest
      calc 2 ≤ rest.count p := this
        _ ≤ (q :: rest).count p := hle

/-- C5: startup validation — a manifest with a leaf that is not a
router-decorated class carrying a route-decorated method (or that decorates a
reserved parameter), or whose leaves register the same path twice, makes
`nestRpcInit` fail with a fatal error before any traffic is served, and the
error names an offending path; a valid manifest never triggers this error. -/
theorem invalid_manifest_fails_startup (m : Manifest) :
    (((∃ pc ∈ m, checkLeaf pc.1 pc.2 ≠ none) ∨ ¬ (allRoutePaths m).Nodup)
      ↔ ∃ e, nestRpcInit m = Except.error e)
    ∧ (∀ e, nestRpcInit m = Except.error e →
        (∃ pc ∈ m, checkLeaf pc.1 pc.2 = some e)
        ∨ (e.kind = ValidationErrorKind.duplicatePath
            ∧ 2 ≤ (allRoutePaths m).count e.path)) := by
  constructor
  · constructor
    · intro h
      match hfind : m.findSome? (fun pc => checkLeaf pc.1 pc.2) with
      | some e =>
          exact ⟨e, by simp [nestRpcInit, hfind]⟩
      | none =>
          have hvalid : ∀ pc ∈ m, checkLeaf pc.1 pc.2 = none :=
            List.findSome?_eq_none_iff.mp hfind
          rcases h with h | h
          · obtain ⟨pc, hmem, hne⟩ := h
            exact absurd (hvalid pc hmem) hne
          · match hdup : firstDup (allRoutePaths m) with
            | some p =>
                exact ⟨⟨p, ValidationErrorKind.duplicatePath⟩,
                  by simp [nestRpcInit, hfind, hdup]⟩
            | none =>
                exact absurd ((firstDup_eq_none_iff _).mp hdup) h
    · rintro ⟨e, he⟩
      by_contra hcon
      push_neg at hcon
      obtain ⟨hleaves, hnodup⟩ := hcon
      have hfind : m.findSome? (fun pc => checkLeaf pc.1 pc.2) = none :=
        List.findSome?_eq_none_iff.mpr (fun pc hpc => hleaves pc hpc)
      have hdup : firstDup (allRoutePaths m) = none :=
        (firstDup_eq_none_iff _).mpr hnodup
      rw [nestRpcInit, hfind, hdup] at he
      cases he
  · intro e he
    match hfind : m.findSome? (fun pc => checkLeaf pc.1 pc.2) with
    | some e' =>
        rw [nestRpcInit, hfind] at he
        obtain rfl : e' = e := by injection he
        obtain ⟨l₁, pc, l₂, hl, hck, _⟩ := List.findSome?_eq_some_iff.mp hfind
        refine Or.inl ⟨pc, ?_, hck⟩
        rw [hl]
        exact List.mem_append_right _ (List.mem_cons_self _ _)
    | none =>
        rw [nestRpcInit, hfind] at he
        match hdup : firstDup (allRoutePaths m) with
        | some p =>
            rw [hdup] at he
            obtain rfl : (⟨p, ValidationErrorKind.duplicatePath⟩
                : StartupValidationError) = e := by injection he
            exact Or.inr ⟨rfl, firstDup_counts _ _ hdup⟩
        | none =>
            rw [hdup] at he
            cases he

/-- C5 witness: a leaf whose class lacks the router decoration is a fatal
startup error, and its error names that leaf. -/
theorem invalid_manifest_fails_startup_witness :
    (∃ e, nestRpcInit [(["user"], ⟨false, []⟩)] = Except.error e)
    ∧ ((∃ pc ∈ ([(["user"], ⟨false, []⟩)] : Manifest),
          checkLeaf pc.1 pc.2
            = some ⟨["user"], ValidationErrorKind.notRouter⟩)
        ∨ ((⟨["user"], ValidationErrorKind.notRouter⟩
              : StartupValidationError).kind
            = ValidationErrorKind.duplicatePath
          ∧ 2 ≤ (allRoutePaths [(["user"], ⟨false, []⟩)]).count
              (⟨["user"], ValidationErrorKind.notRouter⟩
                : StartupValidationError).path)) :=
  ⟨(invalid_manifest_fails_startup [(["user"], ⟨false, []⟩)]).1.mp
    (Or.inl ⟨(["user"], ⟨false, []⟩), by decide, by decide⟩),
   (invalid_manifest_fails_startup [(["user"], ⟨false, []⟩)]).2
    ⟨["user"], ValidationErrorKind.notRouter⟩ rfl⟩

theorem findSome?_ne_none_of_mem {α β : Type} (l : List α) (f : α → Option β)
    (x : α) (hx : x ∈ l) (hfx : f x ≠ none) : l.findSome? f ≠ none :=
  fun h => hfx (List.findSome?_eq_none_iff.mp h x hx)

/-- C6: a route method whose reserved first positional parameter carries a
parameter-binding decoration is rejected at startup — `nestRpcInit` fails
with a fatal error before the server serves any call, and no registry is ever
produced from such a manifest, so the violation cannot surface at call
time. -/
theorem decorated_reserved_param_rejected_at_startup (m : Manifest)
    (pc : List String × RouterClass) (hpc : pc ∈ m) (mth : MethodDecl)
    (hm : mth ∈ pc.2.methods) (hroute : mth.isRoute = true)
    (hdec : mth.param0Decorated = true) :
    (∃ e, nestRpcInit m = Except.error e)
    ∧ ∀ reg, nestRpcInit m ≠ Except.ok reg := by
  have hck : checkLeaf pc.1 pc.2 ≠ none := by
    unfold checkLeaf
    by_cases hrt : pc.2.isRouter = false
    · rw [if_pos hrt]
      simp
    · rw [if_neg hrt]
      have hany : pc.2.methods.any (fun x => x.isRoute) = true :=
        List.any_eq_true.mpr ⟨mth, hm, hroute⟩
      rw [if_neg (by simp [hany])]
      split
      · simp
      · rename_i hnone
        exfalso
        have := List.find?_eq_none.mp hnone mth hm
        simp [hroute, hdec] at this
  have hfs : m.findSome? (fun x => checkLeaf x.1 x.2) ≠ none :=
    findSome?_ne_none_of_mem m _ pc hpc hck
  match hfind : m.findSome? (fun x => checkLeaf x.1 x.2) with
  | none => exact absurd hfind hfs
  | some e =>
      refine ⟨⟨e, by simp [nestRpcInit, hfind]⟩, fun reg hok => ?_⟩
      rw [nestRpcInit, hfind] at hok
      cases hok

/-- C6 witness: a manifest whose single route method decorates its reserved
first parameter fails startup and never yields a registry. -/
theorem decorated_reserved_param_rejected_at_startup_witness :
    (∃ e, nestRpcInit [(["user"], ⟨true, [⟨"getUser", true, true⟩]⟩)]
        = Except.error e)
    ∧ ∀ reg, nestRpcInit [(["user"], ⟨true, [⟨"getUser", true, true⟩]⟩)]
        ≠ Except.ok reg :=
  decorated_reserved_param_rejected_at_startup
    [(["user"], ⟨true, [⟨"getUser", true, true⟩]⟩)]
    (["user"], ⟨true, [⟨"getUser", true, true⟩]⟩) (by decide)
    ⟨"getUser", true, true⟩ (by decide) rfl rfl

/-- Modelled from the spec: the cap on automatic retries per evicted
descriptor — "Cap automatic retries per descriptor (e.g. 3)" (§4.3). -/
def retryCap : Nat := 3

/-- A descriptor's final fate in the flush/re-enqueue cycle: sent on some
attempt, or failed with `OversizeError` once the retry cap is exhausted. -/
inductive RetryOutcome where
  | sent (attempt : Nat)
  | failedOversize
deriving Repr, DecidableEq

/-- Modelled from the spec: the flush-time eviction loop (§4.3).  `evict k`
says the descriptor is evicted again from the batch flushed on its k-th
attempt (attempt 0 is the original enqueue); while budget remains an eviction
re-enqueues the descriptor into a new batch cycle, and an exhausted budget
fails it with `OversizeError`. -/
def runRetries (evict : Nat → Bool) : Nat → Nat → RetryOutcome
  | _, 0 => RetryOutcome.failedOversize
  | attempt, budget + 1 =>
      if evict attempt then runRetries evict (attempt + 1) budget
      else RetryOutcome.sent attempt

/-- A descriptor's whole dispatch cycle: the original attempt plus at most
`retryCap` automatic retries. -/
def dispatchWithRetry (evict : Nat → Bool) : RetryOutcome :=
  runRetries evict 0 (retryCap + 1)

theorem runRetries_sent (evict : Nat → Bool) (budget attempt k : Nat)
    (h : runRetries evict attempt budget = RetryOutcome.sent k) :
    attempt ≤ k ∧ k < attempt + budget ∧ evict k = false
    ∧ ∀ j, attempt ≤ j → j < k → evict j = true := by
  induction budget generalizing attempt with
  | zero => simp [runRetries] at h
  | succ n ih =>
    rw [runRetries] at h
    by_cases he : evict attempt = true
    · rw [if_pos he] at h
      obtain ⟨h1, h2, h3, h4⟩ := ih (attempt + 1) h
      refine ⟨by omega, by omega, h3, fun j hj1 hj2 => ?_⟩
      by_cases hj : j = attempt
      · subst hj; exact he
      · exact h4 j (by omega) hj2
    · rw [if_neg he] at h
      have hak : attempt = k := by injection h
      subst hak
      exact ⟨le_refl _, by omega, by simpa using he,
        fun j hj1 hj2 => absurd (lt_of_le_of_lt hj1 hj2) (lt_irrefl _)⟩

theorem runRetries_all_evicted (evict : Nat → Bool) (budget attempt : Nat)
    (h : ∀ k, attempt ≤ k → k < attempt + budget → evict k = true) :
    runRetries evict attempt budget = RetryOutcome.failedOversize := by
  induction budget generalizing attempt with
  | zero => rfl
  | succ n ih =>
    rw [runRetries, if_pos (h attempt (le_refl _) (by omega))]
    exact ih (attempt + 1) (fun k h1 h2 => h k (by omega) (by omega))

/-- C8: the flush/re-enqueue cycle terminates for every descriptor — a
descriptor is re-enqueued at most `retryCap` times, so it is either sent on
its first non-evicted attempt k ≤ `retryCap` or, when every allowed attempt
got evicted, fails with `OversizeError`; no descriptor loops forever. -/
theorem eviction_retry_cycle_terminates (evict : Nat → Bool) :
    ((∀ k, k ≤ retryCap → evict k = true) →
      dispatchWithRetry evict = RetryOutcome.failedOversize)
    ∧ (∀ k, dispatchWithRetry evict = RetryOutcome.sent k →
        k ≤ retryCap ∧ evict k = false ∧ ∀ j, j < k → evict j = true)
    ∧ (dispatchWithRetry evict = RetryOutcome.failedOversize
        ∨ ∃ k, k ≤ retryCap ∧ dispatchWithRetry evict = RetryOutcome.sent k) := by
  refine ⟨?_, ?_, ?_⟩
  · intro h
    exact runRetries_all_evicted evict (retryCap + 1) 0
      (fun k _ hk => h k (by omega))
  · intro k hk
    obtain ⟨h1, h2, h3, h4⟩ := runRetries_sent evict (retryCap + 1) 0 k hk
    exact ⟨by omega, h3, fun j hj => h4 j (Nat.zero_le _) hj⟩
  · match hv : dispatchWithRetry evict with
    | RetryOutcome.sent k =>
        obtain ⟨h1, h2, h3, h4⟩ := runRetries_sent evict (retryCap + 1) 0 k hv
        exact Or.inr ⟨k, by omega, rfl⟩
    | RetryOutcome.failedOversize => exact Or.inl rfl

/-- C8 witness: a descriptor evicted at every flush fails with
`OversizeError` after the cap, rather than looping. -/
theorem eviction_retry_cycle_terminates_witness :
    dispatchWithRetry (fun _ => true) = RetryOutcome.failedOversize :=
  (eviction_retry_cycle_terminates (fun _ => true)).1 (fun _ _ => rfl)

/-- Modelled from the spec: the client configuration the docs describe
(`client/configuration.md`): base URL, API prefix, and request options
(headers as key-value pairs); the `RpcClient` implementation itself is not in
this repository. -/
structure ClientConfig where
  baseUrl : String
  apiPrefix : String
  requestOptions : List (String × String)
deriving Repr, DecidableEq

/-- The configuration keys `$setConfigProperty` accepts. -/
inductive ConfigKey where
  | baseUrl
  | apiPrefix
  | requestOptions
deriving Repr, DecidableEq

/-- The type of the value stored at each configuration key. -/
def ConfigKey.Value : ConfigKey → Type
  | ConfigKey.baseUrl => String
  | ConfigKey.apiPrefix => String
  | ConfigKey.requestOptions => List (String × String)

/-- Modelled from the spec: `client.$setConfigProperty(key, value)` updates
one configuration property at runtime (docs `client/configuration.md` and the
FAQ's "Can I update the client configuration at runtime?"). -/
def setConfigProperty (c : ClientConfig) :
    (k : ConfigKey) → k.Value → ClientConfig
  | ConfigKey.baseUrl, v => { c with baseUrl := v }
  | ConfigKey.apiPrefix, v => { c with apiPrefix := v }
  | ConfigKey.requestOptions, v => { c with requestOptions := v }

/-- Reading `client.$config` at one key. -/
def getConfigProperty (c : ClientConfig) : (k : ConfigKey) → k.Value
  | ConfigKey.baseUrl => c.baseUrl
  | ConfigKey.apiPrefix => c.apiPrefix
  | ConfigKey.requestOptions => c.requestOptions

/-- The mount target a subsequent request is built against:
`{baseUrl}/{apiPrefix}` (§6). -/
def requestTarget (c : ClientConfig) : String :=
  c.baseUrl ++ "/" ++ c.apiPrefix

/-- C10: the client configuration is mutable at runtime — after
`$setConfigProperty(k, v)`, reading `$config` at `k` yields `v`, every other
configuration field is unchanged, and subsequent requests are built from the
updated configuration. -/
theorem setConfigProperty_updates_only_key (c : ClientConfig) (k : ConfigKey)
    (v : k.Value) (u a : String) :
    getConfigProperty (setConfigProperty c k v) k = v
    ∧ (∀ k', k' ≠ k →
        getConfigProperty (setConfigProperty c k v) k'
          = getConfigProperty c k')
    ∧ requestTarget (setConfigProperty c ConfigKey.baseUrl u)
        = u ++ "/" ++ c.apiPrefix
    ∧ requestTarget (setConfigProperty c ConfigKey.apiPrefix a)
        = c.baseUrl ++ "/" ++ a := by
  refine ⟨?_, ?_, rfl, rfl⟩
  · cases k <;> rfl
  · intro k' hne
    cases k <;> cases k' <;> first | rfl | exact absurd rfl hne

/-- C10 witness: updating `baseUrl` on a concrete configuration changes that
property and leaves `apiPrefix` as it was. -/
theorem setConfigProperty_updates_only_key_witness :
    getConfigProperty (setConfigProperty ⟨"http://a", "api", []⟩
        ConfigKey.baseUrl "http://b") ConfigKey.baseUrl = "http://b"
    ∧ getConfigProperty (setConfigProperty ⟨"http://a", "api", []⟩
        ConfigKey.baseUrl "http://b") ConfigKey.apiPrefix
      = getConfigProperty ⟨"http://a", "api", []⟩ ConfigKey.apiPrefix :=
  ⟨(setConfigProperty_updates_only_key ⟨"http://a", "api", []⟩
      ConfigKey.baseUrl "http://b" "x" "y").1,
   (setConfigProperty_updates_only_key ⟨"http://a", "api", []⟩
      ConfigKey.baseUrl "http://b" "x" "y").2.1 ConfigKey.apiPrefix
      (by decide)⟩

end NestRpc

